import Mathlib

/- Verification development for the organic keyframe animation generator
(goliath_animation_generator.py, class OrganicKeyframeAnimator) and the
joint-value extraction of the publisher node
(blender_joint_publisher/blender_joint_publisher_node.py).

Modelling conventions: Python floats are modelled as real numbers; the
exactly-representable decimal configuration constants that the code
compares or floors (oscillation factors, the global factor, amplitudes and
frequencies) are kept as rationals so that those comparisons stay
decidable.  Python dictionaries are modelled as association lists with
first-match lookup, and dict assignment as insert-at-front after removing
the old binding (lookup-equivalent to the mutation the code performs).
Numpy per-joint arrays are modelled as functions from integers to reals;
the generator reads and writes only indices inside segment ranges, which
for in-range keyframes all lie in [0, total_frames), so numpy index
wrap-around is outside the modelled domain. -/

/-- A keyframe value map: Python dict from joint name to float value. -/
abbrev JMap := List (String × ℝ)

/-- The keyframe store: Python dict from frame number to value map. -/
abbrev KStore := List (ℤ × JMap)

/-- Python dict assignment d[k] = v on an association list: the new binding
shadows and removes any previous binding of the same key. -/
def dinsert {κ α : Type} [DecidableEq κ] (m : List (κ × α)) (k : κ) (v : α) :
    List (κ × α) :=
  (k, v) :: m.filter (fun p => decide (p.1 ≠ k))

/-- Python m.get(j, d) on a joint-value map. -/
def jmGet (m : JMap) (j : String) (d : ℝ) : ℝ :=
  (m.lookup j).getD d

/-- Direct dict indexing self.keyframes[f] (the generator only indexes
frames that are present; an absent frame yields the empty map here). -/
def kfMap (ks : KStore) (f : ℤ) : JMap :=
  (ks.lookup f).getD []

/-- self.keyframes[f].get(j, d). -/
def kfGet (ks : KStore) (f : ℤ) (j : String) (d : ℝ) : ℝ :=
  jmGet (kfMap ks f) j d

/-- The value stored for joint j at frame f, when both are present. -/
def kfValue (ks : KStore) (f : ℤ) (j : String) : Option ℝ :=
  (ks.lookup f).bind (fun m => m.lookup j)

/-- The seven rotational joints, in the order the generator iterates them. -/
def rotationalJoints : List String :=
  ["joint_1", "joint_2", "joint_3", "joint_4", "joint_5", "joint_6", "joint_7"]

/-- The two slider joints. -/
def sliderJoints : List String := ["Slider 22", "Slider 23"]

/-- The joint list iterated inside generate_movement. -/
def allJoints : List String := rotationalJoints ++ sliderJoints

/-- Per-joint oscillation parameters (self.osc_params entries). -/
structure OscParams where
  freq : ℚ
  base_amp : ℚ
  phase : ℝ

/-- The animator state: total_frames, global_osc_factor, keyframes,
osc_factors and osc_params, as set up in OrganicKeyframeAnimator.__init__.
The self.data arrays are not stored: the trajectory is computed
functionally from this state (see rawTrajectory). -/
structure Animator where
  total_frames : ℕ
  global_osc_factor : ℚ
  keyframes : KStore
  osc_factors : List (String × ℚ)
  osc_params : List (String × OscParams)

/-- Initial per-joint oscillation factors (decimal literals as rationals). -/
def initOscFactors : List (String × ℚ) :=
  [("joint_1", 1), ("joint_2", 4/5), ("joint_3", 3/5), ("joint_4", 11/10),
   ("joint_5", 6/5), ("joint_6", 2), ("joint_7", 3/10),
   ("Slider 22", 1/10), ("Slider 23", 1/10)]

/-- Initial per-joint oscillation parameters. -/
noncomputable def initOscParams : List (String × OscParams) :=
  [("joint_1", ⟨2/25, 3, 0⟩),
   ("joint_2", ⟨3/25, 2, Real.pi/4⟩),
   ("joint_3", ⟨1/10, 3/2, Real.pi/2⟩),
   ("joint_4", ⟨3/20, 4, 3*Real.pi/4⟩),
   ("joint_5", ⟨1/5, 5, Real.pi⟩),
   ("joint_6", ⟨1/4, 4, 5*Real.pi/4⟩),
   ("joint_7", ⟨1/20, 1/2, 0⟩),
   ("Slider 22", ⟨3/10, 1/1000, 0⟩),
   ("Slider 23", ⟨3/10, 1/1000, Real.pi⟩)]

/-- OrganicKeyframeAnimator(total_frames, global_osc_factor). -/
noncomputable def mkAnimator (total_frames : ℕ) (global_osc_factor : ℚ) :
    Animator :=
  ⟨total_frames, global_osc_factor, [], initOscFactors, initOscParams⟩

/-- Initial content of the self.data arrays: rotational joints at zero,
sliders at their home values. -/
noncomputable def initData : String → ℤ → ℝ := fun j _ =>
  if j = "Slider 22" then -0.022 else if j = "Slider 23" then 0.022 else 0

/-- set_global_oscillation_factor: clamps the factor at zero. -/
def set_global_oscillation_factor (a : Animator) (factor : ℚ) : Animator :=
  { a with global_osc_factor := max 0 factor }

/-- set_joint_oscillation_factor: clamps at zero and updates the factor if
the joint is known, otherwise only prints a warning (a no-op here). -/
def set_joint_oscillation_factor (a : Animator) (joint_name : String)
    (factor : ℚ) : Animator :=
  if (a.osc_factors.lookup joint_name).isSome then
    { a with osc_factors := dinsert a.osc_factors joint_name (max 0 factor) }
  else a

/-- set_all_joints_oscillation: clamps at zero and writes every factor. -/
def set_all_joints_oscillation (a : Animator) (factor : ℚ) : Animator :=
  { a with osc_factors := a.osc_factors.map (fun p => (p.1, max 0 factor)) }

/-- set_oscillation_amplitude: stores the amplitude unchanged (the code has
no clamping here) when the joint is known; silently a no-op otherwise. -/
def set_oscillation_amplitude (a : Animator) (joint_name : String)
    (amplitude : ℚ) : Animator :=
  match a.osc_params.lookup joint_name with
  | some p =>
      { a with osc_params :=
          dinsert a.osc_params joint_name { p with base_amp := amplitude } }
  | none => a

/-- set_oscillation_frequency: stores the frequency unchanged when the
joint is known; silently a no-op otherwise. -/
def set_oscillation_frequency (a : Animator) (joint_name : String)
    (frequency : ℚ) : Animator :=
  match a.osc_params.lookup joint_name with
  | some p =>
      { a with osc_params :=
          dinsert a.osc_params joint_name { p with freq := frequency } }
  | none => a

/-- add_keyframe: stores a copy of the supplied values at the given frame,
overwriting any existing keyframe there; no range check. -/
def add_keyframe (a : Animator) (frame : ℤ) (joints : JMap) : Animator :=
  { a with keyframes := dinsert a.keyframes frame joints }

/-- get_oscillation: 0 for a joint outside osc_params, otherwise
base_amp * sin(frame * freq + phase) scaled by the per-joint factor
(defaulting to 1 on a lookup miss), the global factor and speed_factor. -/
noncomputable def get_oscillation (a : Animator) (joint_name : String)
    (frame : ℤ) (speed_factor : ℝ) : ℝ :=
  match a.osc_params.lookup joint_name with
  | none => 0
  | some params =>
      let joint_factor : ℚ := (a.osc_factors.lookup joint_name).getD 1
      let base_osc : ℝ :=
        (params.base_amp : ℝ) *
          Real.sin ((frame : ℝ) * (params.freq : ℝ) + params.phase)
      base_osc * (joint_factor : ℝ) * (a.global_osc_factor : ℝ) * speed_factor

/-- Precision-zone test from the generation loop: some keyframe lies at
absolute distance strictly below 10 from the frame. -/
def isPrecisionZone (sortedF : List ℤ) (frame : ℤ) : Bool :=
  sortedF.any (fun keyframe => decide (|frame - keyframe| < 10))

/-- Direct dict indexing self.osc_factors[joint] (all nine joints are
always present; an absent key yields 0 here). -/
def oscFactorIdx (a : Animator) (joint : String) : ℚ :=
  (a.osc_factors.lookup joint).getD 0

/-- The eased base value computed for one joint at one frame of a segment:
t (guarded against the degenerate single-frame segment), cosine easing,
start value defaulting to 0, end value defaulting to the start value. -/
noncomputable def segmentBase (a : Animator) (startF endF frame : ℤ)
    (joint : String) : ℝ :=
  let t : ℝ :=
    if startF ≠ endF then ((frame : ℝ) - (startF : ℝ)) / ((endF : ℝ) - (startF : ℝ))
    else 0
  let ease_t : ℝ := (1 - Real.cos (t * Real.pi)) / 2
  let start_val : ℝ := kfGet a.keyframes startF joint 0
  let end_val : ℝ := kfGet a.keyframes endF joint start_val
  start_val + (end_val - start_val) * ease_t

open Classical in
/-- The oscillation contribution computed for one joint at one frame of a
segment: zero in a precision zone or when the factor is not positive,
otherwise speed-damped get_oscillation, forced to zero for a slider whose
segment movement magnitude is below 0.001. -/
noncomputable def segmentOsc (a : Animator) (sortedF : List ℤ)
    (startF endF frame : ℤ) (joint : String) : ℝ :=
  let start_val : ℝ := kfGet a.keyframes startF joint 0
  let end_val : ℝ := kfGet a.keyframes endF joint start_val
  if isPrecisionZone sortedF frame = false ∧ 0 < oscFactorIdx a joint then
    let movement_distance : ℝ := |end_val - start_val|
    let segment_length : ℤ := max 1 (endF - startF)
    let speed : ℝ := movement_distance / (segment_length : ℝ)
    let speed_factor : ℝ := max 0.1 (1 - speed * 0.1)
    let oscillation : ℝ := get_oscillation a joint frame speed_factor
    if (joint = "Slider 22" ∨ joint = "Slider 23") ∧ movement_distance < 0.001
    then 0 else oscillation
  else 0

/-- The value written into self.data[joint][frame] by one segment pass. -/
noncomputable def segmentValue (a : Animator) (sortedF : List ℤ)
    (startF endF frame : ℤ) (joint : String) : ℝ :=
  segmentBase a startF endF frame joint + segmentOsc a sortedF startF endF frame joint

/-- One segment pass over the data arrays: every (joint, frame) cell with
the frame inside the closed segment interval and the joint among the nine
iterated joints is overwritten with its segment value. -/
noncomputable def writeSegment (a : Animator) (sortedF : List ℤ) (p : ℤ × ℤ)
    (data : String → ℤ → ℝ) : String → ℤ → ℝ :=
  fun j f =>
    if p.1 ≤ f ∧ f ≤ p.2 ∧ j ∈ allJoints then segmentValue a sortedF p.1 p.2 f j
    else data j f

/-- Consecutive pairs of the sorted keyframe list (the segments the
generation loop walks, in order). -/
def segmentPairs : List ℤ → List (ℤ × ℤ)
  | x :: y :: rest => (x, y) :: segmentPairs (y :: rest)
  | _ => []

/-- sorted(self.keyframes.keys()). -/
def sortedFramesOf (a : Animator) : List ℤ :=
  List.insertionSort (· ≤ ·) (a.keyframes.map Prod.fst)

/-- The data arrays after all segment passes of generate_movement. -/
noncomputable def rawTrajectory (a : Animator) : String → ℤ → ℝ :=
  (segmentPairs (sortedFramesOf a)).foldl
    (fun d p => writeSegment a (sortedFramesOf a) p d) initData

/-- Python int() applied to a rational: truncation toward zero. -/
def truncQ (q : ℚ) : ℤ := if q < 0 then -⌊-q⌋ else ⌊q⌋

/-- The smoothing window computed in _apply_smoothing:
max(3, int(factor * 5)). -/
def smoothWindow (a : Animator) (joint : String) : ℤ :=
  max 3 (truncQ (oscFactorIdx a joint * 5))

/-- The inner moving_average helper of _apply_smoothing: at each index of
[0, n) a centered window truncated to [0, n), averaged over however many
samples remain. Indices outside [0, n) do not exist in the numpy array and
are returned unchanged. -/
noncomputable def moving_average (data : ℤ → ℝ) (n : ℤ) (window_size : ℤ) :
    ℤ → ℝ := fun i =>
  if 0 ≤ i ∧ i < n then
    let s : ℤ := max 0 (i - window_size / 2)
    let e : ℤ := min n (i + window_size / 2 + 1)
    (∑ x ∈ Finset.Ico s e, data x) / ((e - s : ℤ) : ℝ)
  else data i

/-- _apply_smoothing: each rotational joint is replaced by its moving
average with the factor-derived window; sliders are left untouched. -/
noncomputable def apply_smoothing (a : Animator) (data : String → ℤ → ℝ) :
    String → ℤ → ℝ := fun j f =>
  if j ∈ rotationalJoints then
    moving_average (data j) (a.total_frames : ℤ) (smoothWindow a j) f
  else data j f

/-- The keyframe map synthesized for frame 0 when it is absent: zeros for
the rotational joints, then the slider home values. -/
noncomputable def homePose : JMap :=
  [("joint_1", 0), ("joint_2", 0), ("joint_3", 0), ("joint_4", 0),
   ("joint_5", 0), ("joint_6", 0), ("joint_7", 0),
   ("Slider 22", -0.022), ("Slider 23", 0.022)]

/-- The boundary-normalization step at the top of generate_movement:
synthesize frame 0 from the registry defaults if absent, then clone the
(possibly synthesized) frame 0 into frame total_frames-1 if absent. -/
noncomputable def normalizeKF (a : Animator) : Animator :=
  let ks1 : KStore :=
    if (a.keyframes.lookup 0).isSome then a.keyframes
    else dinsert a.keyframes 0 homePose
  let ks2 : KStore :=
    if (ks1.lookup ((a.total_frames : ℤ) - 1)).isSome then ks1
    else dinsert ks1 ((a.total_frames : ℤ) - 1) ((ks1.lookup 0).getD [])
  { a with keyframes := ks2 }

/-- The nonempty-keyframes path of generate_movement: normalize the store,
run every segment pass, then smooth. -/
noncomputable def generateCore (a : Animator) : String → ℤ → ℝ :=
  apply_smoothing (normalizeKF a) (rawTrajectory (normalizeKF a))

/-- The keyframes added by _create_default_movement when the store is
empty. -/
noncomputable def createDefaultA (a : Animator) : Animator :=
  add_keyframe (add_keyframe (add_keyframe (add_keyframe (add_keyframe a
    0 [("joint_1", 0), ("joint_2", 0), ("joint_3", 20), ("joint_4", 0),
       ("joint_5", 0), ("joint_6", 0), ("joint_7", 0),
       ("Slider 22", -0.022), ("Slider 23", 0.022)])
    100 [("joint_1", 30), ("joint_2", -60), ("joint_3", 30), ("joint_4", 15),
       ("joint_5", 45), ("joint_6", -30), ("joint_7", 5),
       ("Slider 22", -0.003), ("Slider 23", 0.003)])
    200 [("joint_1", 0), ("joint_2", -84), ("joint_3", 31.2), ("joint_4", 0),
       ("joint_5", 55), ("joint_6", -90), ("joint_7", 0),
       ("Slider 22", -0.003), ("Slider 23", 0.003)])
    210 [("joint_1", 0), ("joint_2", -84), ("joint_3", 31.2), ("joint_4", 0),
       ("joint_5", 45), ("joint_6", -90), ("joint_7", 0),
       ("Slider 22", -0.022), ("Slider 23", 0.022)])
    399 [("joint_1", 0), ("joint_2", 0), ("joint_3", 20), ("joint_4", 0),
       ("joint_5", 0), ("joint_6", 0), ("joint_7", 0),
       ("Slider 22", -0.022), ("Slider 23", 0.022)]

/-- generate_movement: with an empty store, fall back to the default
keyframe sequence (whose recursive generate_movement call then takes the
nonempty path); otherwise run the nonempty path directly. -/
noncomputable def generate_movement (a : Animator) : String → ℤ → ℝ :=
  if a.keyframes.isEmpty then generateCore (createDefaultA a) else generateCore a

/-- One entry of the publisher joint configuration. -/
structure JointCfg where
  csv_column : String
  is_degree : Bool
  deriving DecidableEq

/-- self.joint_config of BlenderJointPublisher: all nine channels, every
one marked is_degree, sliders included. -/
def joint_config : List (String × JointCfg) :=
  [("joint_1", ⟨"joint_1", true⟩), ("joint_2", ⟨"joint_2", true⟩),
   ("joint_3", ⟨"joint_3", true⟩), ("joint_4", ⟨"joint_4", true⟩),
   ("joint_5", ⟨"joint_5", true⟩), ("joint_6", ⟨"joint_6", true⟩),
   ("joint_7", ⟨"joint_7", true⟩), ("Slider 22", ⟨"Slider 22", true⟩),
   ("Slider 23", ⟨"Slider 23", true⟩)]

/-- A CSV row cell as seen by get_joint_values_from_row: none when the
column is missing from the row, some none when the cell does not parse as
a number, some (some v) when it parses to v. -/
abbrev Cell := Option (Option ℚ)

/-- The per-joint body of get_joint_values_from_row: parsed values are
converted with np.deg2rad when is_degree, a missing column or an
unparseable cell yields 0.0. -/
noncomputable def rowValue (cfg : JointCfg) (cell : Cell) : ℝ :=
  match cell with
  | some (some v) =>
      if cfg.is_degree then (v : ℝ) * Real.pi / 180 else (v : ℝ)
  | some none => 0
  | none => 0

/-- get_joint_values_from_row: one value per configured joint, in
configuration order. -/
noncomputable def get_joint_values_from_row (row : String → Cell) : List ℝ :=
  joint_config.map (fun q => rowValue q.2 (row q.2.csv_column))

/-- The conversion the publisher is claimed to apply to every channel:
unconditional degree-to-radian conversion of a parsed value, 0 otherwise. -/
noncomputable def publishedValueSpec (cell : Cell) : ℝ :=
  match cell with
  | some (some v) => (v : ℝ) * Real.pi / 180
  | some none => 0
  | none => 0

/- ------------------------------------------------------------------ -/
/- Association-list lemmas                                             -/
/- ------------------------------------------------------------------ -/

theorem lookup_cons_ne {κ α : Type} [DecidableEq κ] (k' k₁ : κ) (v₁ : α)
    (tl : List (κ × α)) (h : k' ≠ k₁) :
    ((k₁, v₁) :: tl).lookup k' = tl.lookup k' := by
  have hb : (k' == k₁) = false := by simp [h]
  simp [List.lookup, hb]

theorem lookup_filter_ne {κ α : Type} [DecidableEq κ] (m : List (κ × α))
    (k k' : κ) (h : k' ≠ k) :
    (m.filter (fun p => decide (p.1 ≠ k))).lookup k' = m.lookup k' := by
  induction m with
  | nil => rfl
  | cons hd tl ih =>
    obtain ⟨k₁, v₁⟩ := hd
    rw [List.filter_cons]
    by_cases hk : k₁ = k
    · rw [if_neg (by simp [hk])]
      rw [ih, lookup_cons_ne k' k₁ v₁ tl (by rw [hk]; exact h)]
    · rw [if_pos (by simp [hk])]
      by_cases hk' : k' = k₁
      · simp [List.lookup, hk']
      · rw [lookup_cons_ne k' k₁ v₁ _ hk', lookup_cons_ne k' k₁ v₁ tl hk']
        exact ih

theorem lookup_dinsert_self {κ α : Type} [DecidableEq κ] (m : List (κ × α))
    (k : κ) (v : α) : (dinsert m k v).lookup k = some v := by
  simp [dinsert, List.lookup]

theorem lookup_dinsert_ne {κ α : Type} [DecidableEq κ] (m : List (κ × α))
    (k k' : κ) (v : α) (h : k' ≠ k) :
    (dinsert m k v).lookup k' = m.lookup k' := by
  unfold dinsert
  rw [lookup_cons_ne k' k v _ h, lookup_filter_ne m k k' h]

theorem keys_dinsert_nodup {κ α : Type} [DecidableEq κ] (m : List (κ × α))
    (k : κ) (v : α) (h : (m.map Prod.fst).Nodup) :
    ((dinsert m k v).map Prod.fst).Nodup := by
  simp only [dinsert, List.map_cons, List.nodup_cons]
  constructor
  · intro hmem
    obtain ⟨p, hp, hpk⟩ := List.mem_map.mp hmem
    have := (List.mem_filter.mp hp).2
    simp [hpk] at this
  · exact h.sublist (List.Sublist.map Prod.fst (List.filter_sublist m))

/- ------------------------------------------------------------------ -/
/- C10: add_keyframe performs no range validation                      -/
/- ------------------------------------------------------------------ -/

/-- C10: for every integer frame, in range or not, add_keyframe stores the
supplied values mapping at that frame (overwriting any existing keyframe
there) and leaves every other frame untouched; no error path exists. -/
theorem add_keyframe_no_range_check (a : Animator) (frame : ℤ) (joints : JMap) :
    (add_keyframe a frame joints).keyframes.lookup frame = some joints ∧
    (∀ f : ℤ, f ≠ frame →
      (add_keyframe a frame joints).keyframes.lookup f = a.keyframes.lookup f) := by
  constructor
  · exact lookup_dinsert_self a.keyframes frame joints
  · intro f hf
    exact lookup_dinsert_ne a.keyframes frame f joints hf

/-- C10 witness: a frame far outside [0, total_frames-1] of a 400-frame
animator is accepted, stored and overwrites the previous keyframe there. -/
theorem add_keyframe_no_range_check_witness :
    (add_keyframe (add_keyframe (mkAnimator 400 1) 1000 [("joint_1", 7)])
        1000 [("joint_1", 9)]).keyframes.lookup 1000 = some [("joint_1", 9)] ∧
    (add_keyframe (add_keyframe (mkAnimator 400 1) 1000 [("joint_1", 7)])
        1000 [("joint_1", 9)]).keyframes.lookup 5 =
      (add_keyframe (mkAnimator 400 1) 1000 [("joint_1", 7)]).keyframes.lookup 5 :=
  ⟨(add_keyframe_no_range_check
      (add_keyframe (mkAnimator 400 1) 1000 [("joint_1", 7)]) 1000
      [("joint_1", 9)]).1,
   (add_keyframe_no_range_check
      (add_keyframe (mkAnimator 400 1) 1000 [("joint_1", 7)]) 1000
      [("joint_1", 9)]).2 5 (by decide)⟩

/- ------------------------------------------------------------------ -/
/- C7: setter error policy                                             -/
/- ------------------------------------------------------------------ -/

/-- C7 counterexample: set_oscillation_amplitude stores a negative
amplitude unchanged instead of clamping it to 0: after setting joint_1
amplitude to -5, the registry holds base_amp = -5 < 0. -/
theorem setter_policy_counterexample :
    ((set_oscillation_amplitude (mkAnimator 400 1) "joint_1"
        (-5)).osc_params.lookup "joint_1").map OscParams.base_amp = some (-5) ∧
    (-5 : ℚ) < 0 := by
  constructor
  · rfl
  · norm_num

/-- C7 amended: the three factor setters clamp negative factors to 0 and
an unknown joint leaves the animator unchanged; set_oscillation_amplitude
and set_oscillation_frequency store the supplied value unchanged (a
negative amplitude is accepted, not clamped) and are silent no-ops for an
unknown joint. -/
theorem setter_policy_amended (a : Animator) (j : String) (x : ℚ) :
    (set_global_oscillation_factor a x).global_osc_factor = max 0 x ∧
    ((a.osc_factors.lookup j).isSome →
      (set_joint_oscillation_factor a j x).osc_factors.lookup j =
        some (max 0 x)) ∧
    (∀ p ∈ (set_all_joints_oscillation a x).osc_factors, p.2 = max 0 x) ∧
    (∀ q, a.osc_params.lookup j = some q →
      (set_oscillation_amplitude a j x).osc_params.lookup j =
        some { q with base_amp := x }) ∧
    ((a.osc_factors.lookup j).isSome = false →
      set_joint_oscillation_factor a j x = a) ∧
    (a.osc_params.lookup j = none →
      set_oscillation_amplitude a j x = a ∧
        set_oscillation_frequency a j x = a) := by
  refine ⟨rfl, ?_, ?_, ?_, ?_, ?_⟩
  · intro h
    simp only [set_joint_oscillation_factor, h, if_true]
    exact lookup_dinsert_self a.osc_factors j (max 0 x)
  · intro p hp
    simp only [set_all_joints_oscillation, List.mem_map] at hp
    obtain ⟨q, _, rfl⟩ := hp
    rfl
  · intro q hq
    simp only [set_oscillation_amplitude, hq]
    exact lookup_dinsert_self a.osc_params j _
  · intro h
    simp [set_joint_oscillation_factor, h]
  · intro h
    constructor
    · simp [set_oscillation_amplitude, h]
    · simp [set_oscillation_frequency, h]

/-- C7 amended witness: a negative factor on joint_2 is clamped to 0, and
an amplitude call naming an unknown joint changes nothing. -/
theorem setter_policy_amended_witness :
    (set_joint_oscillation_factor (mkAnimator 400 1) "joint_2"
        (-3)).osc_factors.lookup "joint_2" = some 0 ∧
    set_oscillation_amplitude (mkAnimator 400 1) "no_such_joint" (-3) =
      mkAnimator 400 1 := by
  constructor
  · have h := (setter_policy_amended (mkAnimator 400 1) "joint_2" (-3)).2.1
      (by rfl)
    rw [h]
    decide
  · exact ((setter_policy_amended (mkAnimator 400 1) "no_such_joint"
      (-3)).2.2.2.2.2 (by rfl)).1

/- ------------------------------------------------------------------ -/
/- Oscillation-zeroing helper lemmas                                   -/
/- ------------------------------------------------------------------ -/

theorem segOsc_precision (a : Animator) (sF : List ℤ) (s e f : ℤ) (j : String)
    (h : isPrecisionZone sF f = true) : segmentOsc a sF s e f j = 0 := by
  simp only [segmentOsc]
  rw [if_neg]
  rintro ⟨h1, -⟩
  rw [h] at h1
  exact absurd h1 (by simp)

theorem segOsc_factor_np (a : Animator) (sF : List ℤ) (s e f : ℤ) (j : String)
    (h : oscFactorIdx a j ≤ 0) : segmentOsc a sF s e f j = 0 := by
  simp only [segmentOsc]
  rw [if_neg]
  rintro ⟨-, h2⟩
  exact absurd h2 (not_lt.mpr h)

theorem segOsc_slider_still (a : Animator) (sF : List ℤ) (s e f : ℤ)
    (j : String) (hj : j = "Slider 22" ∨ j = "Slider 23")
    (hm : |kfGet a.keyframes e j (kfGet a.keyframes s j 0) -
            kfGet a.keyframes s j 0| < 0.001) :
    segmentOsc a sF s e f j = 0 := by
  simp only [segmentOsc]
  split
  · split
    · rfl
    · next hc => exact absurd ⟨hj, hm⟩ hc
  · rfl

theorem get_osc_unknown (a : Animator) (jn : String) (f : ℤ) (sp : ℝ)
    (h : a.osc_params.lookup jn = none) : get_oscillation a jn f sp = 0 := by
  simp [get_oscillation, h]

/- ------------------------------------------------------------------ -/
/- C2: oscillation zeroing                                             -/
/- ------------------------------------------------------------------ -/

/-- C2: the oscillation contribution of a cell is exactly 0 in a precision
zone (some keyframe closer than 10 frames), or when the joint factor is 0,
or for a slider whose segment movement magnitude is below 0.001; and
get_oscillation returns 0 for a joint name outside the registry. All of
this holds for every animator state, so for any global and per-joint
factors. -/
theorem oscillation_zeroing (a : Animator) (sF : List ℤ) (s e f : ℤ)
    (j : String) :
    (isPrecisionZone sF f = true → segmentOsc a sF s e f j = 0) ∧
    (oscFactorIdx a j = 0 → segmentOsc a sF s e f j = 0) ∧
    ((j = "Slider 22" ∨ j = "Slider 23") →
      |kfGet a.keyframes e j (kfGet a.keyframes s j 0) -
         kfGet a.keyframes s j 0| < 0.001 →
      segmentOsc a sF s e f j = 0) ∧
    (∀ jn sp, a.osc_params.lookup jn = none → get_oscillation a jn f sp = 0) := by
  refine ⟨?_, ?_, ?_, ?_⟩
  · exact segOsc_precision a sF s e f j
  · intro h
    exact segOsc_factor_np a sF s e f j (le_of_eq h)
  · exact segOsc_slider_still a sF s e f j
  · intro jn sp h
    exact get_osc_unknown a jn f sp h

/-- C2 witness: frame 3 lies within 10 frames of keyframe 0, so every
oscillation contribution there is 0; and an unregistered joint name gets
oscillation 0 from get_oscillation. -/
theorem oscillation_zeroing_witness :
    segmentOsc (mkAnimator 400 1) [0] 0 50 3 "joint_1" = 0 ∧
    get_oscillation (mkAnimator 400 1) "no_such_joint" 5 1 = 0 :=
  ⟨(oscillation_zeroing (mkAnimator 400 1) [0] 0 50 3 "joint_1").1 (by decide),
   (oscillation_zeroing (mkAnimator 400 1) [0] 0 50 3 "joint_1").2.2.2
      "no_such_joint" 1 (by rfl)⟩

/- ------------------------------------------------------------------ -/
/- Normalization helper lemmas                                         -/
/- ------------------------------------------------------------------ -/

theorem norm_lookup0_isSome (a : Animator) :
    ((normalizeKF a).keyframes.lookup 0).isSome = true := by
  simp only [normalizeKF]
  by_cases h1 : (a.keyframes.lookup 0).isSome = true
  · rw [if_pos h1]
    by_cases h2 : ((a.keyframes.lookup ((a.total_frames : ℤ) - 1)).isSome) = true
    · rw [if_pos h2]; exact h1
    · rw [if_neg h2]
      by_cases h0 : ((a.total_frames : ℤ) - 1) = 0
      · rw [← h0] at h1 ⊢
        rw [lookup_dinsert_self]; rfl
      · rw [lookup_dinsert_ne _ _ _ _ (Ne.symm h0)]; exact h1
  · rw [if_neg h1]
    by_cases h2 :
        ((dinsert a.keyframes 0 homePose).lookup ((a.total_frames : ℤ) - 1)).isSome = true
    · rw [if_pos h2, lookup_dinsert_self]; rfl
    · rw [if_neg h2]
      by_cases h0 : ((a.total_frames : ℤ) - 1) = 0
      · rw [h0, lookup_dinsert_self]; rfl
      · rw [lookup_dinsert_ne _ _ _ _ (Ne.symm h0), lookup_dinsert_self]; rfl

theorem norm_lookupT_isSome (a : Animator) :
    ((normalizeKF a).keyframes.lookup ((a.total_frames : ℤ) - 1)).isSome = true := by
  simp only [normalizeKF]
  by_cases h1 : (a.keyframes.lookup 0).isSome = true
  · rw [if_pos h1]
    by_cases h2 : ((a.keyframes.lookup ((a.total_frames : ℤ) - 1)).isSome) = true
    · rw [if_pos h2]; exact h2
    · rw [if_neg h2, lookup_dinsert_self]; rfl
  · rw [if_neg h1]
    by_cases h2 :
        ((dinsert a.keyframes 0 homePose).lookup ((a.total_frames : ℤ) - 1)).isSome = true
    · rw [if_pos h2]; exact h2
    · rw [if_neg h2, lookup_dinsert_self]; rfl

theorem normalizeKF_noop (b : Animator)
    (h1 : (b.keyframes.lookup 0).isSome = true)
    (h2 : (b.keyframes.lookup ((b.total_frames : ℤ) - 1)).isSome = true) :
    normalizeKF b = b := by
  simp only [normalizeKF]
  rw [if_pos h1, if_pos h2]

/- ------------------------------------------------------------------ -/
/- C4: boundary normalization                                          -/
/- ------------------------------------------------------------------ -/

/-- C4: with at least one keyframe present, normalization leaves both
boundary frames present, synthesizing frame 0 from the registry defaults
when absent and cloning the (possibly synthesized) frame 0 into the final
frame when that is absent; and normalization is idempotent. -/
theorem boundary_normalization (a : Animator) (hne : a.keyframes ≠ []) :
    ((normalizeKF a).keyframes.lookup 0).isSome = true ∧
    ((normalizeKF a).keyframes.lookup ((a.total_frames : ℤ) - 1)).isSome = true ∧
    (a.keyframes.lookup 0 = none →
      (normalizeKF a).keyframes.lookup 0 = some homePose) ∧
    (a.keyframes.lookup ((a.total_frames : ℤ) - 1) = none →
      ((a.total_frames : ℤ) - 1) ≠ 0 →
      (normalizeKF a).keyframes.lookup ((a.total_frames : ℤ) - 1) =
        (normalizeKF a).keyframes.lookup 0) ∧
    normalizeKF (normalizeKF a) = normalizeKF a := by
  refine ⟨norm_lookup0_isSome a, norm_lookupT_isSome a, ?_, ?_, ?_⟩
  · intro h
    simp only [normalizeKF]
    have hks1 : (if (a.keyframes.lookup 0).isSome = true then a.keyframes
        else dinsert a.keyframes 0 homePose) = dinsert a.keyframes 0 homePose :=
      if_neg (by simp [h])
    rw [hks1]
    by_cases h2 : ((dinsert a.keyframes 0 homePose).lookup
        ((a.total_frames : ℤ) - 1)).isSome = true
    · rw [if_pos h2, lookup_dinsert_self]
    · rw [if_neg h2]
      by_cases h0 : ((a.total_frames : ℤ) - 1) = 0
      · exfalso
        apply h2
        rw [h0, lookup_dinsert_self]
        rfl
      · rw [lookup_dinsert_ne _ _ _ _ (Ne.symm h0), lookup_dinsert_self]
  · intro hA h0
    simp only [normalizeKF]
    by_cases h1 : (a.keyframes.lookup 0).isSome = true
    · have hks1 : (if (a.keyframes.lookup 0).isSome = true then a.keyframes
          else dinsert a.keyframes 0 homePose) = a.keyframes := if_pos h1
      rw [hks1]
      have hc2 : ¬(a.keyframes.lookup ((a.total_frames : ℤ) - 1)).isSome = true := by
        simp [hA]
      rw [if_neg hc2, lookup_dinsert_self, lookup_dinsert_ne _ _ _ _ (Ne.symm h0)]
      obtain ⟨m, hm⟩ := Option.isSome_iff_exists.mp h1
      rw [hm]
      rfl
    · have hks1 : (if (a.keyframes.lookup 0).isSome = true then a.keyframes
          else dinsert a.keyframes 0 homePose) = dinsert a.keyframes 0 homePose :=
        if_neg h1
      rw [hks1]
      have hnone : ((dinsert a.keyframes 0 homePose).lookup
          ((a.total_frames : ℤ) - 1)) = none := by
        rw [lookup_dinsert_ne _ _ _ _ h0]
        exact hA
      have hc2 : ¬((dinsert a.keyframes 0 homePose).lookup
          ((a.total_frames : ℤ) - 1)).isSome = true := by
        simp [hnone]
      rw [if_neg hc2, lookup_dinsert_self,
        lookup_dinsert_ne _ _ _ _ (Ne.symm h0), lookup_dinsert_self]
      rfl
  · exact normalizeKF_noop (normalizeKF a) (norm_lookup0_isSome a)
      (norm_lookupT_isSome a)

/-- C4 witness: with only keyframe 50 supplied in a 100-frame run,
normalization makes frame 0 the home default and frame 99 a clone of it. -/
theorem boundary_normalization_witness :
    (normalizeKF (add_keyframe (mkAnimator 100 1) 50
        [("joint_1", 10)])).keyframes.lookup 0 = some homePose ∧
    (normalizeKF (add_keyframe (mkAnimator 100 1) 50
        [("joint_1", 10)])).keyframes.lookup 99 =
      (normalizeKF (add_keyframe (mkAnimator 100 1) 50
        [("joint_1", 10)])).keyframes.lookup 0 := by
  constructor
  · exact (boundary_normalization (add_keyframe (mkAnimator 100 1) 50
      [("joint_1", 10)]) (by simp [add_keyframe, dinsert])).2.2.1 (by rfl)
  · exact (boundary_normalization (add_keyframe (mkAnimator 100 1) 50
      [("joint_1", 10)]) (by simp [add_keyframe, dinsert])).2.2.2.1
      (by rfl) (by decide)

/- ------------------------------------------------------------------ -/
/- C6: eased base value and the degenerate segment                     -/
/- ------------------------------------------------------------------ -/

theorem segBase_degenerate (a : Animator) (s f : ℤ) (j : String) :
    segmentBase a s s f j = kfGet a.keyframes s j 0 := by
  simp only [segmentBase]
  have ht : (if s ≠ s then ((f : ℝ) - (s : ℝ)) / ((s : ℝ) - (s : ℝ)) else 0)
      = (0 : ℝ) := if_neg (by simp)
  rw [ht, zero_mul, Real.cos_zero]
  ring

/-- C6: the base value of every frame of a segment is
start + (end - start) * (1 - cos(t pi))/2 with t the frame fraction,
defined as 0 for a degenerate single-frame segment, which therefore
outputs the start value instead of dividing by zero. -/
theorem eased_base_value (a : Animator) (s e f : ℤ) (j : String) :
    segmentBase a s e f j =
      kfGet a.keyframes s j 0 +
        (kfGet a.keyframes e j (kfGet a.keyframes s j 0) -
            kfGet a.keyframes s j 0) *
          ((1 - Real.cos
              ((if s ≠ e then ((f : ℝ) - (s : ℝ)) / ((e : ℝ) - (s : ℝ)) else 0) *
                Real.pi)) / 2) ∧
    (s = e → segmentBase a s e f j = kfGet a.keyframes s j 0) := by
  constructor
  · rfl
  · intro h
    subst h
    exact segBase_degenerate a s f j

/-- C6 witness: a degenerate segment at frame 3 of a fresh animator
outputs the start value 0. -/
theorem eased_base_value_witness :
    segmentBase (mkAnimator 5 1) 3 3 7 "joint_1" = 0 := by
  have h := (eased_base_value (mkAnimator 5 1) 3 3 7 "joint_1").2 rfl
  rw [h]
  rfl

/- ------------------------------------------------------------------ -/
/- Keyframe-lookup helper lemmas                                       -/
/- ------------------------------------------------------------------ -/

theorem kfGet_none (ks : KStore) (f : ℤ) (j : String) (d : ℝ)
    (h : kfValue ks f j = none) : kfGet ks f j d = d := by
  unfold kfValue at h
  unfold kfGet kfMap jmGet
  cases hks : ks.lookup f with
  | none => rfl
  | some m =>
    rw [hks] at h
    rw [Option.some_bind] at h
    simp [h]

theorem kfGet_some (ks : KStore) (f : ℤ) (j : String) (d v : ℝ)
    (h : kfValue ks f j = some v) : kfGet ks f j d = v := by
  unfold kfValue at h
  unfold kfGet kfMap jmGet
  cases hks : ks.lookup f with
  | none => rw [hks] at h; simp at h
  | some m =>
    rw [hks] at h
    rw [Option.some_bind] at h
    simp [h]

/- ------------------------------------------------------------------ -/
/- C5: missing joint value resolution                                  -/
/- ------------------------------------------------------------------ -/

/-- C5 counterexample: with keyframes at 0 and 2 that both omit the
sliders, the value the segment pass writes for Slider 22 mid-segment is 0,
not the registry default -0.022: the start-value lookup defaults to 0 for
sliders as well. -/
theorem missing_joint_counterexample :
    kfValue (add_keyframe (add_keyframe (mkAnimator 3 1) 0 [("joint_1", 5)]) 2
        [("joint_1", 5)]).keyframes 0 "Slider 22" = none ∧
    segmentValue (add_keyframe (add_keyframe (mkAnimator 3 1) 0 [("joint_1", 5)]) 2
        [("joint_1", 5)]) [0, 2] 0 2 1 "Slider 22" = 0 ∧
    (0 : ℝ) ≠ -0.022 := by
  refine ⟨rfl, ?_, by norm_num⟩
  unfold segmentValue
  rw [segOsc_precision _ _ _ _ _ _ (by decide)]
  have hs : kfGet (add_keyframe (add_keyframe (mkAnimator 3 1) 0 [("joint_1", 5)]) 2
      [("joint_1", 5)]).keyframes 0 "Slider 22" 0 = 0 :=
    kfGet_none _ _ _ _ (by rfl)
  have he : kfGet (add_keyframe (add_keyframe (mkAnimator 3 1) 0 [("joint_1", 5)]) 2
      [("joint_1", 5)]).keyframes 2 "Slider 22" 0 = 0 :=
    kfGet_none _ _ _ _ (by rfl)
  simp only [segmentBase, hs, he]
  ring

/-- C5 amended: a joint absent from the end keyframe holds its start value
for the entire segment; a joint absent from the start keyframe gets start
value 0 for every joint, sliders included (the slider registry defaults
-0.022/0.022 appear only in the synthesized frame-0 keyframe and the
initial data arrays, not in the per-segment lookup default); with the
joint absent from both keyframes the base value is 0 throughout. -/
theorem missing_joint_resolution (a : Animator) (s e f : ℤ) (j : String) :
    (kfValue a.keyframes e j = none →
      segmentBase a s e f j = kfGet a.keyframes s j 0) ∧
    (kfValue a.keyframes s j = none → kfGet a.keyframes s j 0 = 0) ∧
    (kfValue a.keyframes s j = none → kfValue a.keyframes e j = none →
      segmentBase a s e f j = 0) := by
  refine ⟨?_, ?_, ?_⟩
  · intro he
    simp only [segmentBase, kfGet_none a.keyframes e j _ he]
    ring
  · intro hs
    exact kfGet_none a.keyframes s j 0 hs
  · intro hs he
    simp only [segmentBase, kfGet_none a.keyframes s j 0 hs,
      kfGet_none a.keyframes e j _ he]
    ring

/-- C5 amended witness: a segment whose end keyframe omits joint_1 holds
the start value 5 at mid-segment. -/
theorem missing_joint_resolution_witness :
    segmentBase (add_keyframe (add_keyframe (mkAnimator 3 1) 0 [("joint_1", 5)]) 2
      []) 0 2 1 "joint_1" = 5 := by
  have h := (missing_joint_resolution (add_keyframe (add_keyframe
    (mkAnimator 3 1) 0 [("joint_1", 5)]) 2 []) 0 2 1 "joint_1").1 (by rfl)
  rw [h]
  rfl

/- ------------------------------------------------------------------ -/
/- C8: smoothing filter                                                -/
/- ------------------------------------------------------------------ -/

/-- C8 counterexample: for joint_4 (factor 1.1) the window the code
computes is max(3, int(1.1*5)) = 5, while the window the claim specifies
is max(3, round(1.1*5)) = 6: int() truncates, it does not round. -/
theorem smoothing_window_counterexample :
    smoothWindow (mkAnimator 400 1) "joint_4" = 5 ∧
    max 3 (round (oscFactorIdx (mkAnimator 400 1) "joint_4" * 5)) = 6 := by
  have hf : oscFactorIdx (mkAnimator 400 1) "joint_4" = 11/10 := rfl
  constructor
  · rw [smoothWindow, hf]
    norm_num [truncQ]
  · rw [hf, round_eq]
    norm_num

/-- C8 amended: rotational joints get a centered moving average whose
window is max(3, int(oscillation_factor * 5)) with int() truncating toward
zero (and whose sample range is the half-window on each side, so an even
window covers window+1 samples); sliders are not smoothed; at the
boundaries the averaging range is truncated to [0, total_frames) and the
mean is taken over the remaining samples. -/
theorem smoothing_filter_amended (a : Animator) (d : String → ℤ → ℝ)
    (j : String) (i : ℤ) (hi : 0 ≤ i ∧ i < (a.total_frames : ℤ)) :
    (j ∈ rotationalJoints →
      apply_smoothing a d j i =
        (∑ x ∈ Finset.Ico (max 0 (i - smoothWindow a j / 2))
            (min (a.total_frames : ℤ) (i + smoothWindow a j / 2 + 1)), d j x) /
          ((min (a.total_frames : ℤ) (i + smoothWindow a j / 2 + 1) -
              max 0 (i - smoothWindow a j / 2) : ℤ) : ℝ)) ∧
    (j ∈ sliderJoints → apply_smoothing a d j i = d j i) ∧
    (0 : ℤ) ≤ max 0 (i - smoothWindow a j / 2) ∧
    min (a.total_frames : ℤ) (i + smoothWindow a j / 2 + 1) ≤
      (a.total_frames : ℤ) := by
  refine ⟨?_, ?_, le_max_left 0 _, min_le_left _ _⟩
  · intro hj
    simp only [apply_smoothing]
    rw [if_pos hj]
    simp only [moving_average]
    rw [if_pos hi]
  · intro hj
    have hj2 : j = "Slider 22" ∨ j = "Slider 23" := by
      simpa [sliderJoints] using hj
    simp only [apply_smoothing]
    rcases hj2 with h | h
    · rw [if_neg (by rw [h]; decide)]
    · rw [if_neg (by rw [h]; decide)]

/-- C8 amended witness: a slider channel is returned unsmoothed. -/
theorem smoothing_filter_amended_witness :
    apply_smoothing (mkAnimator 5 1) (fun _ _ => (1 : ℝ)) "Slider 22" 2 = 1 :=
  (smoothing_filter_amended (mkAnimator 5 1) (fun _ _ => (1 : ℝ)) "Slider 22" 2
    (by decide)).2.1 (by decide)

/- ------------------------------------------------------------------ -/
/- C9: the publisher converts every channel as degrees                 -/
/- ------------------------------------------------------------------ -/

theorem rowValue_degree (cfg : JointCfg) (h : cfg.is_degree = true)
    (c : Cell) : rowValue cfg c = publishedValueSpec c := by
  cases c with
  | none => rfl
  | some o =>
    cases o with
    | none => rfl
    | some v => simp [rowValue, publishedValueSpec, h]

/-- C9: every entry of the publisher joint configuration is marked
is_degree, so every channel of every published row, the linear slider
channels included, is the parsed cell value converted by value * pi / 180;
a missing column or an unparseable cell becomes 0.0 instead of an error,
and each row yields exactly nine values. -/
theorem publisher_all_degrees (row : String → Cell) :
    (∀ q ∈ joint_config, q.2.is_degree = true) ∧
    get_joint_values_from_row row =
      joint_config.map (fun q => publishedValueSpec (row q.2.csv_column)) ∧
    (get_joint_values_from_row row).length = 9 := by
  refine ⟨by decide, ?_, by simp [get_joint_values_from_row, joint_config]⟩
  simp only [get_joint_values_from_row, joint_config, List.map_cons,
    List.map_nil]
  simp [rowValue_degree]

/- ------------------------------------------------------------------ -/
/- Segment-pass machinery                                              -/
/- ------------------------------------------------------------------ -/

theorem precision_of_mem (sF : List ℤ) (f : ℤ) (h : f ∈ sF) :
    isPrecisionZone sF f = true := by
  unfold isPrecisionZone
  rw [List.any_eq_true]
  exact ⟨f, h, by simp⟩

theorem segBase_at_start (a : Animator) (s e : ℤ) (j : String) (h : s ≠ e) :
    segmentBase a s e s j = kfGet a.keyframes s j 0 := by
  simp only [segmentBase]
  rw [if_pos h]
  rw [show ((s : ℝ) - (s : ℝ)) / ((e : ℝ) - (s : ℝ)) = 0 by rw [sub_self, zero_div]]
  rw [zero_mul, Real.cos_zero]
  ring

theorem segBase_at_end (a : Animator) (s e : ℤ) (j : String) (h : s ≠ e) :
    segmentBase a s e e j = kfGet a.keyframes e j (kfGet a.keyframes s j 0) := by
  simp only [segmentBase]
  rw [if_pos h]
  have hne : (e : ℝ) - (s : ℝ) ≠ 0 := by
    rw [sub_ne_zero]
    exact_mod_cast (Ne.symm h)
  rw [div_self hne, one_mul, Real.cos_pi]
  ring

theorem foldl_write_not_covered (a : Animator) (sF : List ℤ)
    (L : List (ℤ × ℤ)) (d0 : String → ℤ → ℝ) (j : String) (f : ℤ)
    (h : ∀ p ∈ L, ¬(p.1 ≤ f ∧ f ≤ p.2)) :
    (L.foldl (fun d p => writeSegment a sF p d) d0) j f = d0 j f := by
  induction L generalizing d0 with
  | nil => rfl
  | cons q L ih =>
    rw [List.foldl_cons]
    rw [ih _ (fun p hp => h p (List.mem_cons_of_mem q hp))]
    simp only [writeSegment]
    rw [if_neg]
    rintro ⟨h1, h2, -⟩
    exact h q (List.mem_cons_self q L) ⟨h1, h2⟩

theorem segmentPairs_append (xs : List ℤ) (y : ℤ) (ys : List ℤ) :
    segmentPairs (xs ++ y :: ys) =
      segmentPairs (xs ++ [y]) ++ segmentPairs (y :: ys) := by
  induction xs with
  | nil => simp [segmentPairs]
  | cons x xs ih =>
    cases xs with
    | nil => simp [segmentPairs]
    | cons x₂ xs₂ =>
      simp only [List.cons_append, segmentPairs] at ih ⊢
      exact congrArg (List.cons (x, x₂)) ih

theorem segmentPairs_mem :
    ∀ (xs : List ℤ) (p : ℤ × ℤ), p ∈ segmentPairs xs → p.1 ∈ xs ∧ p.2 ∈ xs
  | [], _, hp => absurd hp (List.not_mem_nil _)
  | [x], _, hp => absurd hp (by simp [segmentPairs])
  | x :: y :: rest, p, hp => by
    rw [show segmentPairs (x :: y :: rest) = (x, y) :: segmentPairs (y :: rest)
      from rfl, List.mem_cons] at hp
    rcases hp with rfl | hp
    · exact ⟨List.mem_cons_self _ _,
        List.mem_cons_of_mem _ (List.mem_cons_self _ _)⟩
    · have h2 := segmentPairs_mem (y :: rest) p hp
      exact ⟨List.mem_cons_of_mem _ h2.1, List.mem_cons_of_mem _ h2.2⟩

/-- The central exactness lemma for the raw (pre-smoothing) trajectory: if
the keyframe keys are duplicate-free, the frame k is a keyframe, there are
at least two keyframes, and the keyframe at k assigns v to joint j, then
the last segment pass writing cell (k, j) writes exactly v: oscillation is
suppressed in the precision zone around k and the cosine ease evaluates to
the exact endpoint value. -/
theorem raw_exact_of_sorted (a : Animator) (k : ℤ) (j : String) (v : ℝ)
    (hnd : (a.keyframes.map Prod.fst).Nodup)
    (hk : k ∈ a.keyframes.map Prod.fst)
    (hlen : 1 < (a.keyframes.map Prod.fst).length)
    (hj : j ∈ allJoints)
    (hv : kfValue a.keyframes k j = some v) :
    rawTrajectory a j k = v := by
  have hperm : List.Perm (sortedFramesOf a) (a.keyframes.map Prod.fst) :=
    List.perm_insertionSort _ _
  have hsorted : (sortedFramesOf a).Sorted (· ≤ ·) :=
    List.sorted_insertionSort _ _
  have hndF : (sortedFramesOf a).Nodup := hperm.nodup_iff.mpr hnd
  have hmem : k ∈ sortedFramesOf a := hperm.mem_iff.mpr hk
  have hlt : (sortedFramesOf a).Sorted (· < ·) := by
    have hp := List.Pairwise.and hsorted hndF
    exact hp.imp (fun h => lt_of_le_of_ne h.1 h.2)
  have hlenF : 1 < (sortedFramesOf a).length := by
    rw [hperm.length_eq]
    exact hlen
  obtain ⟨l₁, l₂, hdec⟩ := List.append_of_mem hmem
  unfold rawTrajectory
  rw [hdec] at hlt hlenF ⊢
  cases l₂ with
  | cons nxt rest =>
    rw [segmentPairs_append l₁ k (nxt :: rest), List.foldl_append]
    rw [show segmentPairs (k :: nxt :: rest) =
      (k, nxt) :: segmentPairs (nxt :: rest) from rfl]
    rw [List.foldl_cons]
    have hcross := (List.pairwise_append.mp hlt).2.1
    have hgt : ∀ x ∈ nxt :: rest, k < x := (List.pairwise_cons.mp hcross).1
    rw [foldl_write_not_covered a _ (segmentPairs (nxt :: rest)) _ j k ?hnc]
    case hnc =>
      intro p hp hcon
      have hm2 := segmentPairs_mem (nxt :: rest) p hp
      exact absurd hcon.1 (not_le.mpr (hgt p.1 hm2.1))
    simp only [writeSegment]
    have hkn : k < nxt := hgt nxt (List.mem_cons_self _ _)
    rw [if_pos ⟨le_refl k, le_of_lt hkn, hj⟩]
    unfold segmentValue
    rw [segOsc_precision _ _ _ _ _ _ (precision_of_mem _ _ (hdec ▸ hmem)),
      segBase_at_start a k nxt j (ne_of_lt hkn),
      kfGet_some a.keyframes k j 0 v hv, add_zero]
  | nil =>
    have hl₁ : l₁ ≠ [] := by
      intro hnil
      rw [hnil] at hlenF
      simp at hlenF
    obtain ⟨l₀, prv, hcat⟩ := l₁.eq_nil_or_concat.resolve_left hl₁
    have hcat2 : l₁ = l₀ ++ [prv] := by rw [hcat, List.concat_eq_append]
    rw [hcat2] at hlt ⊢
    rw [show ((l₀ ++ [prv]) ++ [k] : List ℤ) = l₀ ++ prv :: [k] by simp]
    rw [segmentPairs_append l₀ prv [k], List.foldl_append]
    rw [show segmentPairs (prv :: [k]) = [(prv, k)] from rfl,
      List.foldl_cons, List.foldl_nil]
    have hlt2 : List.Sorted (· < ·) (l₀ ++ prv :: [k]) := by
      have heq : (l₀ ++ [prv] ++ [k] : List ℤ) = l₀ ++ prv :: [k] := by simp
      rwa [heq] at hlt
    have hcross := (List.pairwise_append.mp hlt2).2.1
    have hpk : prv < k := (List.pairwise_cons.mp hcross).1 k
      (List.mem_singleton_self k)
    simp only [writeSegment]
    rw [if_pos ⟨le_of_lt hpk, le_refl k, hj⟩]
    unfold segmentValue
    rw [segOsc_precision _ _ _ _ _ _ (precision_of_mem _ _ (by
        rw [show (l₀ ++ prv :: [k] : List ℤ) = (l₀ ++ [prv]) ++ [k] by simp,
          ← hcat2, ← hdec]
        exact hmem)),
      segBase_at_end a prv k j (ne_of_lt hpk),
      kfGet_some a.keyframes k j _ v hv, add_zero]

/- ------------------------------------------------------------------ -/
/- C3: idempotent shared boundary                                      -/
/- ------------------------------------------------------------------ -/

/-- Keyframes 0 and 4 at value 0 and a shared keyframe 2 assigning
joint_1 the value 4. -/
noncomputable def exSharedA : Animator :=
  add_keyframe (add_keyframe (add_keyframe (mkAnimator 5 1)
    0 [("joint_1", 0)]) 2 [("joint_1", 4)]) 4 [("joint_1", 0)]

/-- Keyframes 0 and 4 at value 5 and a shared keyframe 2 whose value map
omits joint_1. -/
noncomputable def exSharedB : Animator :=
  add_keyframe (add_keyframe (add_keyframe (mkAnimator 5 1)
    0 [("joint_1", 5)]) 2 []) 4 [("joint_1", 5)]

/-- C3 counterexample: when the shared keyframe at frame 2 omits joint_1,
the first segment pass writes the held start value 5 at frame 2 while the
second segment pass rewrites the cell with its default start value 0: the
two writes differ. -/
theorem shared_boundary_counterexample :
    segmentValue exSharedB [0, 2, 4] 0 2 2 "joint_1" = 5 ∧
    segmentValue exSharedB [0, 2, 4] 2 4 2 "joint_1" = 0 ∧
    (5 : ℝ) ≠ 0 := by
  refine ⟨?_, ?_, by norm_num⟩
  · unfold segmentValue
    rw [segOsc_precision _ _ _ _ _ _ (by decide),
      segBase_at_end exSharedB 0 2 "joint_1" (by decide),
      kfGet_none _ _ _ _ (by rfl), kfGet_some _ _ _ _ 5 (by rfl), add_zero]
  · unfold segmentValue
    rw [segOsc_precision _ _ _ _ _ _ (by decide),
      segBase_at_start exSharedB 2 4 "joint_1" (by decide),
      kfGet_none _ _ _ _ (by rfl), add_zero]

/-- C3 amended: for a joint that is present in the shared keyframe value
map, the write of the segment ending at the shared frame and the write of
the segment starting there both equal the stored keyframe value, so the
second write is idempotent; when the joint is absent from the shared
keyframe the two writes can differ (the earlier pass holds the previous
start value, the later pass restarts from the default 0). -/
theorem shared_boundary_amended (a : Animator) (sF : List ℤ) (prv k nxt : ℤ)
    (j : String) (v : ℝ) (h1 : prv ≠ k) (h2 : k ≠ nxt) (hkF : k ∈ sF)
    (hv : kfValue a.keyframes k j = some v) :
    segmentValue a sF prv k k j = v ∧ segmentValue a sF k nxt k j = v := by
  constructor
  · unfold segmentValue
    rw [segOsc_precision _ _ _ _ _ _ (precision_of_mem sF k hkF),
      segBase_at_end a prv k j h1, kfGet_some a.keyframes k j _ v hv, add_zero]
  · unfold segmentValue
    rw [segOsc_precision _ _ _ _ _ _ (precision_of_mem sF k hkF),
      segBase_at_start a k nxt j h2, kfGet_some a.keyframes k j 0 v hv,
      add_zero]

/-- C3 amended witness: with joint_1 present in the shared keyframe at
frame 2, both segment passes write the identical value 4 there. -/
theorem shared_boundary_amended_witness :
    segmentValue exSharedA [0, 2, 4] 0 2 2 "joint_1" = 4 ∧
    segmentValue exSharedA [0, 2, 4] 2 4 2 "joint_1" = 4 :=
  shared_boundary_amended exSharedA [0, 2, 4] 0 2 4 "joint_1" 4
    (by decide) (by decide) (by decide) (by rfl)

/- ------------------------------------------------------------------ -/
/- C1: exactness at keyframes                                          -/
/- ------------------------------------------------------------------ -/

/-- Keyframes 0 and 2 assigning Slider 22 the values 1 and 2. -/
noncomputable def exExactA : Animator :=
  add_keyframe (add_keyframe (mkAnimator 5 1) 0 [("Slider 22", 1)]) 2
    [("Slider 22", 2)]

/-- C1 amended: for every keyframe frame k and every joint j assigned
there, the raw trajectory (after oscillation gating, before the smoothing
post-pass) holds the keyframe value exactly, and for slider joints, which
the smoothing pass does not touch, the final generate_movement output is
exact as well; the smoothing moving average can alter rotational joint
values at keyframe frames. -/
theorem keyframe_exactness_amended (a : Animator) (k : ℤ) (j : String)
    (v : ℝ) (hem : a.keyframes.isEmpty = false)
    (hnd : ((normalizeKF a).keyframes.map Prod.fst).Nodup)
    (hk : k ∈ (normalizeKF a).keyframes.map Prod.fst)
    (hlen : 1 < ((normalizeKF a).keyframes.map Prod.fst).length)
    (hj : j ∈ allJoints)
    (hv : kfValue (normalizeKF a).keyframes k j = some v) :
    rawTrajectory (normalizeKF a) j k = v ∧
    (j ∈ sliderJoints → generate_movement a j k = v) := by
  have hraw := raw_exact_of_sorted (normalizeKF a) k j v hnd hk hlen hj hv
  refine ⟨hraw, ?_⟩
  intro hsl
  have hj2 : j = "Slider 22" ∨ j = "Slider 23" := by
    simpa [sliderJoints] using hsl
  unfold generate_movement
  rw [if_neg (by simp [hem])]
  unfold generateCore apply_smoothing
  rcases hj2 with rfl | rfl
  · rw [if_neg (by decide)]
    exact hraw
  · rw [if_neg (by decide)]
    exact hraw

/-- C1 amended witness: Slider 22, keyframed to 2 at frame 2, is exactly 2
both in the raw trajectory and in the final generate_movement output. -/
theorem keyframe_exactness_amended_witness :
    rawTrajectory (normalizeKF exExactA) "Slider 22" 2 = 2 ∧
    generate_movement exExactA "Slider 22" 2 = 2 := by
  have h := keyframe_exactness_amended exExactA 2 "Slider 22" 2 (by rfl)
    (by decide) (by decide) (by decide) (by decide) (by rfl)
  exact ⟨h.1, h.2 (by decide)⟩

/-- Keyframes 0 and 2 assigning joint_3 the values 0 and 4 in a 5-frame
run (normalization clones frame 0 into frame 4). -/
noncomputable def exExactB : Animator :=
  add_keyframe (add_keyframe (mkAnimator 5 1) 0 [("joint_3", 0)]) 2
    [("joint_3", 4)]

theorem exExactB_sorted : sortedFramesOf (normalizeKF exExactB) = [0, 2, 4] := by
  decide

theorem exExactB_raw1 : rawTrajectory (normalizeKF exExactB) "joint_3" 1 = 2 := by
  unfold rawTrajectory
  rw [exExactB_sorted]
  rw [show segmentPairs [(0 : ℤ), 2, 4] = [(0, 2), (2, 4)] from rfl,
    List.foldl_cons, List.foldl_cons, List.foldl_nil]
  simp only [writeSegment]
  rw [if_neg (show ¬((2 : ℤ) ≤ 1 ∧ (1 : ℤ) ≤ 4 ∧ "joint_3" ∈ allJoints) by decide)]
  rw [if_pos (show (0 : ℤ) ≤ 1 ∧ (1 : ℤ) ≤ 2 ∧ "joint_3" ∈ allJoints by decide)]
  unfold segmentValue
  rw [segOsc_precision _ _ _ _ _ _ (by decide)]
  simp only [segmentBase]
  rw [if_pos (show (0 : ℤ) ≠ 2 by decide)]
  rw [kfGet_some _ _ _ _ 0 (by rfl), kfGet_some _ _ _ _ 4 (by rfl)]
  have harg : (((1 : ℤ) : ℝ) - ((0 : ℤ) : ℝ)) / (((2 : ℤ) : ℝ) - ((0 : ℤ) : ℝ)) *
      Real.pi = Real.pi / 2 := by
    push_cast
    ring
  rw [harg, Real.cos_pi_div_two]
  norm_num

theorem exExactB_raw2 : rawTrajectory (normalizeKF exExactB) "joint_3" 2 = 4 := by
  unfold rawTrajectory
  rw [exExactB_sorted]
  rw [show segmentPairs [(0 : ℤ), 2, 4] = [(0, 2), (2, 4)] from rfl,
    List.foldl_cons, List.foldl_cons, List.foldl_nil]
  simp only [writeSegment]
  rw [if_pos (show (2 : ℤ) ≤ 2 ∧ (2 : ℤ) ≤ 4 ∧ "joint_3" ∈ allJoints by decide)]
  unfold segmentValue
  rw [segOsc_precision _ _ _ _ _ _ (by decide),
    segBase_at_start _ 2 4 "joint_3" (by decide),
    kfGet_some _ _ _ _ 4 (by rfl), add_zero]

theorem exExactB_raw3 : rawTrajectory (normalizeKF exExactB) "joint_3" 3 = 2 := by
  unfold rawTrajectory
  rw [exExactB_sorted]
  rw [show segmentPairs [(0 : ℤ), 2, 4] = [(0, 2), (2, 4)] from rfl,
    List.foldl_cons, List.foldl_cons, List.foldl_nil]
  simp only [writeSegment]
  rw [if_pos (show (2 : ℤ) ≤ 3 ∧ (3 : ℤ) ≤ 4 ∧ "joint_3" ∈ allJoints by decide)]
  unfold segmentValue
  rw [segOsc_precision _ _ _ _ _ _ (by decide)]
  simp only [segmentBase]
  rw [if_pos (show (2 : ℤ) ≠ 4 by decide)]
  rw [kfGet_some _ _ _ _ 4 (by rfl), kfGet_some _ _ _ _ 0 (by rfl)]
  have harg : (((3 : ℤ) : ℝ) - ((2 : ℤ) : ℝ)) / (((4 : ℤ) : ℝ) - ((2 : ℤ) : ℝ)) *
      Real.pi = Real.pi / 2 := by
    push_cast
    ring
  rw [harg, Real.cos_pi_div_two]
  norm_num

/-- C1 counterexample: joint_3 is keyframed to 4 at frame 2, yet the final
trajectory returned by generate_movement holds 8/3 there: the smoothing
moving average (window 3) replaces the exact keyframe value 4 with the
mean of 2, 4 and 2. -/
theorem keyframe_exactness_counterexample :
    kfValue (normalizeKF exExactB).keyframes 2 "joint_3" = some 4 ∧
    generate_movement exExactB "joint_3" 2 = 8 / 3 ∧ ((8 : ℝ) / 3) ≠ 4 := by
  refine ⟨by rfl, ?_, by norm_num⟩
  unfold generate_movement
  rw [if_neg (by decide)]
  unfold generateCore apply_smoothing
  rw [if_pos (show "joint_3" ∈ rotationalJoints by decide)]
  have hw : smoothWindow (normalizeKF exExactB) "joint_3" = 3 := by
    have hf : oscFactorIdx (normalizeKF exExactB) "joint_3" = 3 / 5 := rfl
    rw [smoothWindow, hf]
    norm_num [truncQ]
  rw [hw]
  simp only [moving_average]
  rw [if_pos (show (0 : ℤ) ≤ 2 ∧
    (2 : ℤ) < ((normalizeKF exExactB).total_frames : ℤ) by constructor <;> decide)]
  rw [show max 0 (2 - (3 : ℤ) / 2) = 1 by decide]
  rw [show min ((normalizeKF exExactB).total_frames : ℤ) (2 + (3 : ℤ) / 2 + 1) = 4
    by decide]
  rw [show Finset.Ico (1 : ℤ) 4 = {1, 2, 3} by decide]
  rw [Finset.sum_insert (by decide), Finset.sum_insert (by decide),
    Finset.sum_singleton]
  rw [exExactB_raw1, exExactB_raw2, exExactB_raw3]
  norm_num

/-- C9 witness: a concrete configuration entry is marked is_degree and an
all-missing row still yields nine values. -/
theorem publisher_all_degrees_witness :
    (("joint_1", (⟨"joint_1", true⟩ : JointCfg)) : String × JointCfg).2.is_degree
        = true ∧
    (get_joint_values_from_row (fun _ => none)).length = 9 :=
  ⟨(publisher_all_degrees (fun _ => none)).1 ("joint_1", ⟨"joint_1", true⟩)
      (by decide),
   (publisher_all_degrees (fun _ => none)).2.2⟩
